import Mathlib

/-!
Shallow embedding of the LabelMateScene integration's core logic:
the snapshot computation of `entity_manager.py` (`LabelGroupCoordinator._async_update_data`),
the group state machine and scene-first command routing of `group_base.py`
(`LabelGroupBase`), and constants from `const.py`.

Conventions of the embedding:
* entity/device/scene identifiers and label names are `String`s;
* the external `homeassistant.util.slugify` is abstract: definitions take a
  `slug : String → String` parameter, since the code only compares slugified
  labels for equality;
* Python dict lookups become association-list lookups; Python `None` becomes
  `Option.none`;
* the duck-typed scene attribute values (`dict` / `list`-like / `str` /
  anything else) become the tagged union `AttrVal`, with Python truthiness
  made explicit (`AttrVal.truthy`);
* timestamps (`time.time()`) are natural numbers in seconds; the suppression
  window `1.0` becomes `suppressWindow = 1`;
* the two `try/except` boundaries of `_async_update_data` (registry access,
  scene enumeration) are modelled by two booleans saying whether the guarded
  block raises; a raising block is modelled as failing atomically at its start.
-/

namespace LabelMate

/-- Constant from `const.py`: `ALLOWED_DOMAINS = ["light", "switch", "fan", "input_boolean"]`. -/
def ALLOWED_DOMAINS : List String := ["light", "switch", "fan", "input_boolean"]

/-- Group-type values from `const.py`: `switch`, `light`, `scene`. -/
inductive GroupType where
  | switch : GroupType
  | light : GroupType
  | scene : GroupType
deriving DecidableEq, Repr

/-- An item of a Python list stored in a scene attribute: a string, or a
non-string value (skipped by the `isinstance(eid, str)` checks). -/
inductive AttrItem where
  | astr (s : String) : AttrItem
  | aother : AttrItem
deriving DecidableEq, Repr

/-- A duck-typed scene attribute value, as inspected by
`_async_update_data`: a dict mapping entity id to desired state, a
list/tuple/set of items, a single string, or some other (truthy) object. -/
inductive AttrVal where
  | adict (m : List (String × String)) : AttrVal
  | alist (xs : List AttrItem) : AttrVal
  | astr (s : String) : AttrVal
  | aother : AttrVal
deriving DecidableEq, Repr

/-- Python truthiness of an attribute value (empty dict/list/str are falsy;
`aother` stands for a truthy unrecognized object). -/
def AttrVal.truthy : AttrVal → Bool
  | .adict m => !m.isEmpty
  | .alist xs => !xs.isEmpty
  | .astr s => !s.isEmpty
  | .aother => true

/-- An entity-registry entry: `entry.entity_id`, `entry.labels`,
`entry.device_id`. -/
structure RegEntry where
  entity_id : String
  labels : List String
  device_id : Option String
deriving DecidableEq, Repr

/-- A device-registry entry: `dev.labels`. -/
structure DevEntry where
  labels : List String
deriving DecidableEq, Repr

/-- A live state object (`hass.states.get(...)`), restricted to the fields
the embedded code reads: `state`, `name`, and the three scene attributes
`entities`, `entity_id`, `device_ids` (absent key = `none`). -/
structure HAState where
  state : String
  name : String
  entities_attr : Option AttrVal
  entity_id_attr : Option AttrVal
  device_ids_attr : Option AttrVal
deriving DecidableEq, Repr

/-- The external directories and live state store: entity registry (in
enumeration order), device registry, and state store. -/
structure Hass where
  ent_reg : List RegEntry
  dev_reg : List (String × DevEntry)
  states : List (String × HAState)
deriving DecidableEq, Repr

/-- Dict lookup `hass.states.get(eid)`. -/
def statesGet (hass : Hass) (eid : String) : Option HAState :=
  (hass.states.find? (fun p => p.1 == eid)).map Prod.snd

/-- Dict lookup `dev_reg.devices.get(dev_id)`. -/
def devGet (hass : Hass) (dev_id : String) : Option DevEntry :=
  (hass.dev_reg.find? (fun p => p.1 == dev_id)).map Prod.snd

/-- The domain of an entity id, `e.split(".", 1)[0]` — the characters
before the first `"."` (the whole id when it has no dot). -/
def entityDomain (e : String) : String :=
  String.mk (e.toList.takeWhile (fun c => c ≠ '.'))

/-- Python `s.startswith(pre)`. -/
def strStarts (pre s : String) : Bool :=
  List.isPrefixOf pre.toList s.toList

/-- Whether the live state of `e` is the string `"on"`
(`s is not None and s.state == "on"`). -/
def stateIsOn (hass : Hass) (e : String) : Bool :=
  match statesGet hass e with
  | some s => s.state == "on"
  | none => false

/-- Python `dict.fromkeys` first-occurrence deduplication, with an accumulator of
already seen keys. -/
def dedupFirstAux (seen : List String) : List String → List String
  | [] => []
  | x :: xs =>
      if x ∈ seen then dedupFirstAux seen xs
      else x :: dedupFirstAux (x :: seen) xs

/-- Python `list(dict.fromkeys(l))`: deduplicate keeping first occurrences. -/
def dedupFirst (l : List String) : List String :=
  dedupFirstAux [] l

/-- One entity-registry entry matches the label scan of
`_async_update_data` (lines 190-208): some entity label slugifies to the
normalized label, or the owning device exists and some device label does.
(The `raise StopIteration` after an append is an early exit from that
entry's scan, so each matching entry is appended exactly once.) -/
def labelScanMatch (slug : String → String) (hass : Hass) (norm : String)
    (en : RegEntry) : Bool :=
  en.labels.any (fun lab => slug lab == norm) ||
    (match en.device_id with
     | some d =>
         (match devGet hass d with
          | some dv => dv.labels.any (fun lab => slug lab == norm)
          | none => false)
     | none => false)

/-- The raw membership scan over the entity registry (skipped entirely for
Scene-type groups). -/
def scanTargets (slug : String → String) (gt : GroupType) (hass : Hass)
    (norm : String) : List String :=
  if gt = GroupType.scene then []
  else (hass.ent_reg.filter (labelScanMatch slug hass norm)).map (·.entity_id)

/-- Lines 210-218: filter the scan to entities present in the state store
with an allowed domain, then deduplicate keeping first occurrences. -/
def membershipTargets (slug : String → String) (gt : GroupType) (hass : Hass)
    (norm : String) : List String :=
  dedupFirst ((scanTargets slug gt hass norm).filter
    (fun e => (statesGet hass e).isSome && ALLOWED_DOMAINS.contains (entityDomain e)))

/-- Lines 221-226: count `"on"` entities (only for non-scene groups). -/
def membershipOnCount (slug : String → String) (gt : GroupType) (hass : Hass)
    (norm : String) : Nat :=
  if gt = GroupType.scene then 0
  else (membershipTargets slug gt hass norm).countP (fun e => stateIsOn hass e)

/-- Lines 235-243 of `entity_manager.py` (and equivalently
`_get_scenes_with_label` in `group_base.py`): registry entries whose id
starts with `"scene."` and that carry the requested label. -/
def scenesWithLabel (slug : String → String) (hass : Hass) (norm : String) :
    List String :=
  (hass.ent_reg.filter (fun en =>
    strStarts "scene." en.entity_id &&
      en.labels.any (fun lab => slug lab == norm))).map (·.entity_id)

/-- Python `st.attributes.get("entities") or st.attributes.get("entity_id")`:
Python `or` returns the first operand when truthy, else the second as-is. -/
def entMapOf (st : HAState) : Option AttrVal :=
  match st.entities_attr with
  | some v => if v.truthy then some v else st.entity_id_attr
  | none => st.entity_id_attr

/-- Lines 256-273: members declared by the scene's entity encoding —
dict keys, list of strings, or a single string, each filtered to ids
present in the state store; any other value contributes nothing. -/
def entityEncMembers (hass : Hass) (st : HAState) : List String :=
  match entMapOf st with
  | some (.adict m) => (m.map Prod.fst).filter (fun eid => (statesGet hass eid).isSome)
  | some (.alist xs) =>
      xs.filterMap (fun it =>
        match it with
        | .astr s => if (statesGet hass s).isSome then some s else none
        | .aother => none)
  | some (.astr s) => if (statesGet hass s).isSome then [s] else []
  | some .aother => []
  | none => []

/-- Attribute `st.attributes.get("device_ids", [])`, kept only when it is a
list/tuple/set (`isinstance` check); otherwise the loop body never runs. -/
def declaredDeviceItems (st : HAState) : List AttrItem :=
  match st.device_ids_attr with
  | some (.alist xs) => xs
  | _ => []

/-- Lines 284-287: scan the entity registry for entities owned by device
`d`, appending those present in the state store and not already collected. -/
def devFold (hass : Hass) (d : String) (reg : List RegEntry)
    (acc : List String) : List String :=
  reg.foldl (fun acc2 en =>
    if en.device_id == some d && !acc2.contains en.entity_id &&
        (statesGet hass en.entity_id).isSome
    then acc2 ++ [en.entity_id] else acc2) acc

/-- Lines 277-287: expand each string device id that exists in the device
registry to its owned entities, appending only entities not already
collected. -/
def expandDevices (hass : Hass) (items : List AttrItem) (init : List String) :
    List String :=
  items.foldl (fun ents it =>
    match it with
    | .astr dev_id =>
        match devGet hass dev_id with
        | some _ => devFold hass dev_id hass.ent_reg ents
        | none => ents
    | .aother => ents) init

/-- Lines 253-289: the full member resolution for one scene state — the
entity encoding's members, then the device-id expansion appended. -/
def resolveSceneEnts (hass : Hass) (st : HAState) : List String :=
  expandDevices hass (declaredDeviceItems st) (entityEncMembers hass st)

/-- Line 250-251: a scene's display name, falling back to its id when the
scene has no state object. -/
def sceneNameOf (hass : Hass) (sid : String) : String :=
  match statesGet hass sid with
  | some st => st.name
  | none => sid

/-- The per-scene member lists, in scene discovery order. -/
def sceneEntitiesOf (slug : String → String) (hass : Hass) (norm : String) :
    List (String × List String) :=
  (scenesWithLabel slug hass norm).map (fun sid =>
    (sid, match statesGet hass sid with
          | some st => resolveSceneEnts hass st
          | none => []))

/-- The per-scene display names, in scene discovery order. -/
def sceneNamesOf (slug : String → String) (hass : Hass) (norm : String) :
    List (String × String) :=
  (scenesWithLabel slug hass norm).map (fun sid => (sid, sceneNameOf hass sid))

/-- The published snapshot (`GroupSnapshot`): the dict returned by
`_async_update_data`. The registry-failure early return omits the scene
keys; since every consumer reads them with a default, it is modelled as
the snapshot with empty scene fields. -/
structure Snapshot where
  targets : List String
  total : Nat
  on_count : Nat
  scenes : List String
  scene_entities : List (String × List String)
  scene_names : List (String × String)
deriving DecidableEq, Repr

/-- The fallback snapshot returned when fetching the registries raises
(line 176): `{"targets": [], "total": 0, "on_count": 0}`. -/
def fallbackSnapshot : Snapshot :=
  ⟨[], 0, 0, [], [], []⟩

/-- Lines 318-331: for a Scene-type group with at least one matching scene,
aggregate all member entities across scenes. The source computes
`list(set(...))`, whose iteration order Python leaves unspecified; the
embedding fixes the representative order "concatenation in scene order,
first occurrence kept". -/
def aggregateSceneTargets (ents : List (String × List String)) : List String :=
  dedupFirst (ents.map Prod.snd).flatten

/-- Embedding of `LabelGroupCoordinator._async_update_data` (lines 158-361).
`regFail` models the `try` at lines 171-176 raising (fallback snapshot);
`sceneFail` models the `try` at lines 233-344 raising at its start
(scene lists left empty, membership results kept). -/
def updateData (slug : String → String) (gt : GroupType) (label : String)
    (hass : Hass) (regFail sceneFail : Bool) : Snapshot :=
  if regFail then fallbackSnapshot
  else
    let norm := slug label
    let memT := membershipTargets slug gt hass norm
    let memOn := membershipOnCount slug gt hass norm
    if sceneFail then
      ⟨memT, memT.length, memOn, [], [], []⟩
    else
      let scenes := scenesWithLabel slug hass norm
      let sents := sceneEntitiesOf slug hass norm
      let snames := sceneNamesOf slug hass norm
      if gt = GroupType.scene ∧ scenes ≠ [] then
        let agg := aggregateSceneTargets sents
        ⟨agg, agg.length, agg.countP (fun e => stateIsOn hass e), scenes, sents, snames⟩
      else
        ⟨memT, memT.length, memOn, scenes, sents, snames⟩

/-!
Embedding of `group_base.py` (`LabelGroupBase`): the suppression/override
state machine and the scene-first command routing.
-/

/-- The fixed suppression window: `time.time() + 1.0` (1 second). -/
def suppressWindow : Nat := 1

/-- The mutable per-entity state of `LabelGroupBase`: last-used scene slots,
suppression fields, and the cached displayed value. -/
structure GroupState where
  last_on_scene : Option String
  last_off_scene : Option String
  suppress_until : Nat
  forced_state : Option Bool
  attr_is_on : Bool
deriving DecidableEq, Repr

/-- The initial entity state set in `__init__`. -/
def initGroupState : GroupState :=
  ⟨none, none, 0, none, false⟩

/-- A downstream command issued through the service layer. -/
inductive Command where
  | sceneActivate (sid : String) : Command
  | bulkOn (targets : List String) : Command
  | bulkOff (targets : List String) : Command
deriving DecidableEq, Repr

/-- The observable outcome of one `async_turn_on` / `async_turn_off` call:
the entity state afterwards, the commands dispatched, and whether an
uncaught exception propagated to the caller (`raised = true`), in which
case `gs` is the state at the raise point. -/
structure CmdOutcome where
  gs : GroupState
  cmds : List Command
  raised : Bool
deriving DecidableEq, Repr

/-- Embedding of `LabelGroupBase.is_on` (lines 110-124): during an active suppression
window with a forced state recorded, return the forced state; otherwise
derive from the snapshot: `total > 0 and on_count > 0`. -/
def isOnDisplayed (gs : GroupState) (now : Nat) (data : Snapshot) : Bool :=
  if now < gs.suppress_until then
    match gs.forced_state with
    | some b => b
    | none => decide (0 < data.total) && decide (0 < data.on_count)
  else decide (0 < data.total) && decide (0 < data.on_count)

/-- Embedding of `_handle_coordinator_update` (lines 79-104): ignore the notification
while suppression is active; otherwise clear the forced state and refresh
the cached displayed value from the snapshot. -/
def handleCoordinatorUpdate (gs : GroupState) (now : Nat) (data : Snapshot) :
    GroupState :=
  if now < gs.suppress_until then gs
  else
    let gs1 := { gs with forced_state := none }
    { gs1 with attr_is_on := isOnDisplayed gs1 now data }

/-- Whether a (lower-cased) list of characters contains `pat` as a
contiguous sublist — Python's `pat in s` on strings. -/
def charsContain (pat : List Char) : List Char → Bool
  | [] => pat.isEmpty
  | c :: t => List.isPrefixOf pat (c :: t) || charsContain pat t

/-- Python `name.lower()` as a character list — ASCII lowering, which
suffices for detecting the literal `"off"`. -/
def lowerChars (s : String) : List Char :=
  s.toList.map Char.toLower

/-- Python `"off" in state.name.lower()`. -/
def nameHasOff (name : String) : Bool :=
  charsContain "off".toList (lowerChars name)

/-- Whether the scene `sid` has a state whose display name contains
`"off"` case-insensitively; `false` when the scene has no state (the code
path that reads the name raises before this answer is used). -/
def sceneHasOffName (hass : Hass) (sid : String) : Bool :=
  match statesGet hass sid with
  | some st => nameHasOff st.name
  | none => false

/-- The direction filter of `_maybe_activate_scene`: turn-off keeps scenes
whose display name contains `"off"`, turn-on keeps the others. -/
def isCandidate (hass : Hass) (turnOff : Bool) (sid : String) : Bool :=
  if turnOff then sceneHasOffName hass sid else !sceneHasOffName hass sid

/-- The candidate-collection loop of `_maybe_activate_scene` (lines
252-275): walk the label-matching scenes, keep those whose lower-cased
display name contains (turn-off) / does not contain (turn-on) `"off"`.
Returns `none` when some matching scene has no state object: there
`state.name` raises `AttributeError` and the whole call propagates it. -/
def collectCandidates (hass : Hass) (turnOff : Bool) :
    List String → Option (List String)
  | [] => some []
  | sid :: rest =>
      match statesGet hass sid with
      | none => none
      | some st =>
          let keep := if turnOff then nameHasOff st.name else !nameHasOff st.name
          match collectCandidates hass turnOff rest with
          | none => none
          | some cs => some (if keep then sid :: cs else cs)

/-- Strict lexicographic order on character lists by code point — the
order Python's `list.sort()` uses on strings. -/
def charsLt : List Char → List Char → Bool
  | [], [] => false
  | [], _ :: _ => true
  | _ :: _, [] => false
  | a :: as, b :: bs =>
      if a < b then true else if b < a then false else charsLt as bs

/-- Strict lexicographic order on strings. -/
def strLt (a b : String) : Bool :=
  charsLt a.toList b.toList

/-- Embedding of `candidates.sort(); chosen = candidates[0]`: the chosen scene is the
least candidate in lexicographic string order. -/
def minString (x : String) (xs : List String) : String :=
  xs.foldl (fun a b => if strLt b a then b else a) x

/-- Embedding of `_maybe_activate_scene` (lines 242-306): collect candidates, and if any
exist pick the alphabetically first, update the last-used-scene slots and
activate it (`True`); otherwise change nothing (`False`). `none` models the
`AttributeError` raised when a matching scene has no state. -/
def maybeActivateScene (slug : String → String) (hass : Hass) (label : String)
    (turnOff : Bool) (gs : GroupState) :
    Option (GroupState × List Command × Bool) :=
  match collectCandidates hass turnOff (scenesWithLabel slug hass (slug label)) with
  | none => none
  | some [] => some (gs, [], false)
  | some (c :: cs) =>
      let chosen := minString c cs
      let gs' :=
        if turnOff then
          { gs with last_off_scene := some chosen, last_on_scene := none }
        else
          { gs with last_on_scene := some chosen, last_off_scene := none }
      some (gs', [Command.sceneActivate chosen], true)

/-- Embedding of `async_turn_on` (lines 126-167). On the empty-target fallback branch the
debug log evaluates `self._label_name`, an attribute assigned on the
coordinator and the sensor but never on the group entity classes, so the
call raises `AttributeError` there (`raised = true`). -/
def asyncTurnOn (slug : String → String) (hass : Hass) (label : String)
    (gs : GroupState) (now : Nat) (data : Snapshot) : CmdOutcome :=
  match maybeActivateScene slug hass label false gs with
  | none => ⟨gs, [], true⟩
  | some (gs', cmds, true) => ⟨gs', cmds, false⟩
  | some (_, _, false) =>
      let gs1 := { gs with last_on_scene := none }
      if data.targets.isEmpty then ⟨gs1, [], true⟩
      else
        ⟨{ gs1 with
            forced_state := some true,
            suppress_until := now + suppressWindow,
            attr_is_on := true },
          [Command.bulkOn data.targets], false⟩

/-- Embedding of `async_turn_off` (lines 169-212), mirror of `asyncTurnOn`; the same
`self._label_name` slip makes the empty-target branch raise. -/
def asyncTurnOff (slug : String → String) (hass : Hass) (label : String)
    (gs : GroupState) (now : Nat) (data : Snapshot) : CmdOutcome :=
  match maybeActivateScene slug hass label true gs with
  | none => ⟨gs, [], true⟩
  | some (gs', cmds, true) => ⟨gs', cmds, false⟩
  | some (_, _, false) =>
      let gs1 := { gs with last_off_scene := none }
      if data.targets.isEmpty then ⟨gs1, [], true⟩
      else
        ⟨{ gs1 with
            forced_state := some false,
            suppress_until := now + suppressWindow,
            attr_is_on := false },
          [Command.bulkOff data.targets], false⟩

/-!
Model of the refresh coalescing contract. The single-flight plus
trailing-edge debounce machinery lives in the external
`DataUpdateCoordinator` base class that `LabelGroupCoordinator` extends;
only its subclass is in this repository.
-/

/-- Modelled from the spec: the coordinator's refresh bookkeeping — whether
a recomputation is in flight, whether one trailing recomputation is queued,
how many recomputations completed, and the snapshots delivered to
listeners (one notification per completed recomputation). The
`DataUpdateCoordinator` base class implementing `async_request_refresh` is
not under `src/`. -/
structure CoordState where
  in_flight : Bool
  pending : Bool
  completed : Nat
  notified : List Snapshot
deriving DecidableEq, Repr

/-- Modelled from the spec: `requestRefresh()` — start a recomputation when
idle; while one is in flight, coalesce into at most one queued trailing
recomputation. -/
def requestRefresh (c : CoordState) : CoordState :=
  if c.in_flight then { c with pending := true }
  else { c with in_flight := true }

/-- Modelled from the spec: completion of the in-flight recomputation with
snapshot `snap` — notify listeners exactly once with the fully-built
snapshot, and immediately start the queued trailing recomputation if one
was coalesced. -/
def finishRecompute (c : CoordState) (snap : Snapshot) : CoordState :=
  { in_flight := c.pending, pending := false, completed := c.completed + 1,
    notified := c.notified ++ [snap] }

/-- Apply `f` to `a`, `n` times. -/
def applyN {α : Type} (f : α → α) : Nat → α → α
  | 0, a => a
  | n + 1, a => applyN f n (f a)

/-!
Concrete worlds.

Closed inputs used to evaluate the embedded code at specific states:
an identity slugifier (labels below are already slugs), a world with
labelled lights, devices and scenes, and an empty world.
-/

/-- A slugifier for concrete worlds whose labels are already slugs. -/
def slugIdent : String → String := fun s => s

/-- A world with two lights labelled `"l"` (one directly, one through its
device), a media player, and three scenes labelled `"l"`:
`scene.zeta` (name "Zeta") declaring `light.a` via a dict and device
`dev1` via `device_ids`, `scene.alpha` (name "Alpha") declaring
`light.a` via a list, and `scene.night_off` (name "Night Off") declaring
`light.a` as a single string. -/
def demoHass : Hass :=
  { ent_reg := [
      ⟨"light.a", ["l"], none⟩,
      ⟨"light.b", [], some "dev1"⟩,
      ⟨"scene.zeta", ["l"], none⟩,
      ⟨"scene.alpha", ["l"], none⟩,
      ⟨"scene.night_off", ["l"], none⟩,
      ⟨"media_player.tv", [], none⟩],
    dev_reg := [("dev1", ⟨["l"]⟩)],
    states := [
      ("light.a", ⟨"on", "Light A", none, none, none⟩),
      ("light.b", ⟨"off", "Light B", none, none, none⟩),
      ("media_player.tv", ⟨"on", "TV", none, none, none⟩),
      ("scene.zeta", ⟨"scening", "Zeta",
        some (.adict [("light.a", "on")]), none, some (.alist [.astr "dev1"])⟩),
      ("scene.alpha", ⟨"scening", "Alpha",
        some (.alist [.astr "light.a"]), none, none⟩),
      ("scene.night_off", ⟨"scening", "Night Off",
        some (.astr "light.a"), none, none⟩)] }

/-- A world where the label matches one scene referencing a
`media_player` entity (a domain outside `ALLOWED_DOMAINS`). -/
def mediaHass : Hass :=
  { ent_reg := [⟨"scene.s", ["l"], none⟩],
    dev_reg := [],
    states := [
      ("scene.s", ⟨"scening", "Media Scene",
        some (.adict [("media_player.tv", "on")]), none, none⟩),
      ("media_player.tv", ⟨"on", "TV", none, none, none⟩)] }

/-- A world with no entities at all: the label matches zero entities and
zero scenes. -/
def emptyHass : Hass :=
  { ent_reg := [], dev_reg := [], states := [] }

/-- A scene state carrying both an entity encoding (`entities` dict with
key `light.a`) and a `device_ids` list naming `dev1`. -/
def bothEncodingsScene : HAState :=
  ⟨"scening", "Zeta", some (.adict [("light.a", "on")]), none,
    some (.alist [.astr "dev1"])⟩

/-- A world with one labelled light and no scenes at all: commands fall
through to the bulk path. -/
def plainHass : Hass :=
  { ent_reg := [⟨"light.a", ["l"], none⟩],
    dev_reg := [],
    states := [("light.a", ⟨"on", "Light A", none, none, none⟩)] }

/-- A group-entity state in the middle of a suppression window: forced on,
expiry at time 10. -/
def suppressedOnState : GroupState :=
  ⟨none, none, 10, some true, true⟩

/-! Helper lemmas about the deduplication used by the snapshot builder -/

theorem mem_dedupFirstAux (e : String) :
    ∀ (l seen : List String), e ∈ dedupFirstAux seen l ↔ e ∈ l ∧ e ∉ seen := by
  intro l
  induction l with
  | nil => intro seen; simp [dedupFirstAux]
  | cons x xs ih =>
      intro seen
      by_cases hx : x ∈ seen
      · simp only [dedupFirstAux, if_pos hx, ih, List.mem_cons]
        constructor
        · rintro ⟨h1, h2⟩; exact ⟨Or.inr h1, h2⟩
        · rintro ⟨rfl | h1, h2⟩
          · exact absurd hx h2
          · exact ⟨h1, h2⟩
      · simp only [dedupFirstAux, if_neg hx, List.mem_cons, ih]
        constructor
        · rintro (rfl | ⟨h1, h2⟩)
          · exact ⟨Or.inl rfl, hx⟩
          · exact ⟨Or.inr h1, fun hs => h2 (Or.inr hs)⟩
        · rintro ⟨rfl | h1, h2⟩
          · exact Or.inl rfl
          · by_cases he : e = x
            · exact Or.inl he
            · exact Or.inr ⟨h1, fun hs => hs.elim he h2⟩

theorem nodup_dedupFirstAux :
    ∀ (l seen : List String), (dedupFirstAux seen l).Nodup := by
  intro l
  induction l with
  | nil => intro seen; simp [dedupFirstAux]
  | cons x xs ih =>
      intro seen
      by_cases hx : x ∈ seen
      · simpa [dedupFirstAux, if_pos hx] using ih seen
      · simp only [dedupFirstAux, if_neg hx, List.nodup_cons]
        refine ⟨fun hmem => ?_, ih (x :: seen)⟩
        exact ((mem_dedupFirstAux x xs (x :: seen)).mp hmem).2 (List.mem_cons_self x seen)

theorem mem_dedupFirst (e : String) (l : List String) :
    e ∈ dedupFirst l ↔ e ∈ l := by
  simp [dedupFirst, mem_dedupFirstAux]

theorem nodup_dedupFirst (l : List String) : (dedupFirst l).Nodup :=
  nodup_dedupFirstAux l []

/-! Helper lemmas about the alphabetical choice -/

theorem charsLt_irrefl : ∀ a : List Char, charsLt a a = false := by
  intro a
  induction a with
  | nil => rfl
  | cons c as ih => simp [charsLt, lt_irrefl, ih]

theorem charsLt_trans :
    ∀ a b c : List Char, charsLt a b = true → charsLt b c = true →
      charsLt a c = true := by
  intro a
  induction a with
  | nil =>
      intro b c hab hbc
      cases b with
      | nil => simp [charsLt] at hab
      | cons y bs =>
          cases c with
          | nil => simp [charsLt] at hbc
          | cons z cs => simp [charsLt]
  | cons x as ih =>
      intro b c hab hbc
      cases b with
      | nil => simp [charsLt] at hab
      | cons y bs =>
          cases c with
          | nil => simp [charsLt] at hbc
          | cons z cs =>
              rcases lt_trichotomy x y with hxy | hxy | hxy
              · rcases lt_trichotomy y z with hyz | hyz | hyz
                · simp [charsLt, lt_trans hxy hyz]
                · subst hyz; simp [charsLt, hxy]
                · simp [charsLt, lt_asymm hyz, hyz] at hbc
              · subst hxy
                have hab' : charsLt as bs = true := by
                  simpa [charsLt, lt_irrefl] using hab
                rcases lt_trichotomy x z with hxz | hxz | hxz
                · simp [charsLt, hxz]
                · subst hxz
                  have hbc' : charsLt bs cs = true := by
                    simpa [charsLt, lt_irrefl] using hbc
                  simpa [charsLt, lt_irrefl] using ih bs cs hab' hbc'
                · simp [charsLt, lt_asymm hxz, hxz] at hbc
              · simp [charsLt, lt_asymm hxy, hxy] at hab

theorem charsLt_total :
    ∀ a b : List Char, charsLt a b = true ∨ charsLt b a = true ∨ a = b := by
  intro a
  induction a with
  | nil =>
      intro b
      cases b with
      | nil => exact Or.inr (Or.inr rfl)
      | cons y bs => exact Or.inl rfl
  | cons x as ih =>
      intro b
      cases b with
      | nil => exact Or.inr (Or.inl rfl)
      | cons y bs =>
          rcases lt_trichotomy x y with h | h | h
          · exact Or.inl (by simp [charsLt, h])
          · subst h
            rcases ih bs with h1 | h1 | h1
            · exact Or.inl (by simp [charsLt, lt_irrefl, h1])
            · exact Or.inr (Or.inl (by simp [charsLt, lt_irrefl, h1]))
            · exact Or.inr (Or.inr (by rw [h1]))
          · exact Or.inr (Or.inl (by simp [charsLt, h]))

theorem charsNotLt_trans (a b c : List Char)
    (hab : charsLt a b = false) (hbc : charsLt b c = false) :
    charsLt a c = false := by
  cases hac : charsLt a c with
  | false => rfl
  | true =>
      exfalso
      rcases charsLt_total a b with h1 | h1 | h1
      · rw [h1] at hab; exact Bool.noConfusion hab
      · have h2 := charsLt_trans b a c h1 hac
        rw [hbc] at h2; exact Bool.noConfusion h2
      · subst h1
        rw [hac] at hbc; exact Bool.noConfusion hbc

theorem strLt_irrefl (a : String) : strLt a a = false :=
  charsLt_irrefl a.toList

theorem strLt_trans (a b c : String) (hab : strLt a b = true)
    (hbc : strLt b c = true) : strLt a c = true :=
  charsLt_trans a.toList b.toList c.toList hab hbc

theorem strNotLt_trans (a b c : String) (hab : strLt a b = false)
    (hbc : strLt b c = false) : strLt a c = false :=
  charsNotLt_trans a.toList b.toList c.toList hab hbc

theorem minString_mem :
    ∀ (xs : List String) (x : String), minString x xs = x ∨ minString x xs ∈ xs := by
  intro xs
  induction xs with
  | nil => intro x; exact Or.inl rfl
  | cons b xs ih =>
      intro x
      have hstep : minString x (b :: xs) = minString (if strLt b x then b else x) xs :=
        rfl
      rw [hstep]
      by_cases hbx : strLt b x = true
      · rw [if_pos hbx]
        rcases ih b with h | h
        · exact Or.inr (by rw [h]; exact List.mem_cons_self b xs)
        · exact Or.inr (List.mem_cons_of_mem b h)
      · rw [if_neg hbx]
        rcases ih x with h | h
        · exact Or.inl h
        · exact Or.inr (List.mem_cons_of_mem b h)

theorem minString_not_lt :
    ∀ (xs : List String) (x y : String), y = x ∨ y ∈ xs →
      strLt y (minString x xs) = false := by
  intro xs
  induction xs with
  | nil =>
      rintro x y (rfl | hy)
      · exact strLt_irrefl y
      · simp at hy
  | cons b xs ih =>
      rintro x y hy
      have hstep : minString x (b :: xs) = minString (if strLt b x then b else x) xs :=
        rfl
      rw [hstep]
      by_cases hbx : strLt b x = true
      · rw [if_pos hbx]
        rcases hy with rfl | hy
        · have hbm : strLt b (minString b xs) = false := ih b b (Or.inl rfl)
          cases hxm : strLt y (minString b xs) with
          | false => rfl
          | true =>
              have h2 := strLt_trans b y (minString b xs) hbx hxm
              rw [hbm] at h2; exact Bool.noConfusion h2
        · rcases List.mem_cons.mp hy with rfl | hy'
          · exact ih y y (Or.inl rfl)
          · exact ih b y (Or.inr hy')
      · have hbx' : strLt b x = false := Bool.eq_false_iff.mpr hbx
        rw [if_neg hbx]
        rcases hy with rfl | hy
        · exact ih y y (Or.inl rfl)
        · rcases List.mem_cons.mp hy with rfl | hy'
          · exact strNotLt_trans y x (minString x xs) hbx' (ih x x (Or.inl rfl))
          · exact ih x y (Or.inr hy')

/-! Helper lemmas about device expansion and scene member resolution -/

theorem mem_devFold (hass : Hass) (d : String) :
    ∀ (reg : List RegEntry) (acc : List String) (e : String),
      e ∈ devFold hass d reg acc ↔
        e ∈ acc ∨ ∃ en ∈ reg, en.entity_id = e ∧ en.device_id = some d ∧
          (statesGet hass e).isSome = true := by
  intro reg
  induction reg with
  | nil => intro acc e; simp [devFold]
  | cons en rest ih =>
      intro acc e
      have hstep : devFold hass d (en :: rest) acc =
          devFold hass d rest
            (if en.device_id == some d && !acc.contains en.entity_id &&
                (statesGet hass en.entity_id).isSome
             then acc ++ [en.entity_id] else acc) := rfl
      rw [hstep, ih]
      simp only [List.exists_mem_cons_iff]
      by_cases hdev : en.device_id = some d
      · by_cases hst : (statesGet hass en.entity_id).isSome = true
        · by_cases hacc : acc.contains en.entity_id = true
          · have hc : (en.device_id == some d && !acc.contains en.entity_id &&
                (statesGet hass en.entity_id).isSome) = false := by
              rw [hacc]; simp
            rw [hc]
            simp only [Bool.false_eq_true, if_false]
            constructor
            · rintro (h | h)
              · exact Or.inl h
              · exact Or.inr (Or.inr h)
            · rintro (h | ⟨rfl, _, _⟩ | h)
              · exact Or.inl h
              · exact Or.inl (by simpa using hacc)
              · exact Or.inr h
          · have hacc' : acc.contains en.entity_id = false := Bool.eq_false_iff.mpr hacc
            have hc : (en.device_id == some d && !acc.contains en.entity_id &&
                (statesGet hass en.entity_id).isSome) = true := by
              rw [hdev, hacc', hst]; simp
            rw [hc]
            simp only [if_true, List.mem_append, List.mem_singleton]
            constructor
            · rintro ((h | rfl) | h)
              · exact Or.inl h
              · exact Or.inr (Or.inl ⟨rfl, hdev, hst⟩)
              · exact Or.inr (Or.inr h)
            · rintro (h | ⟨rfl, _, _⟩ | h)
              · exact Or.inl (Or.inl h)
              · exact Or.inl (Or.inr rfl)
              · exact Or.inr h
        · have hst' : (statesGet hass en.entity_id).isSome = false :=
            Bool.eq_false_iff.mpr hst
          have hc : (en.device_id == some d && !acc.contains en.entity_id &&
              (statesGet hass en.entity_id).isSome) = false := by
            rw [hst']; simp
          rw [hc]
          simp only [Bool.false_eq_true, if_false]
          constructor
          · rintro (h | h)
            · exact Or.inl h
            · exact Or.inr (Or.inr h)
          · rintro (h | ⟨rfl, _, hs⟩ | h)
            · exact Or.inl h
            · exact absurd hs hst
            · exact Or.inr h
      · have hdev' : (en.device_id == some d) = false := by
          simp only [beq_eq_false_iff_ne, ne_eq]
          exact hdev
        have hc : (en.device_id == some d && !acc.contains en.entity_id &&
            (statesGet hass en.entity_id).isSome) = false := by
          rw [hdev']; simp
        rw [hc]
        simp only [Bool.false_eq_true, if_false]
        constructor
        · rintro (h | h)
          · exact Or.inl h
          · exact Or.inr (Or.inr h)
        · rintro (h | ⟨_, hd, _⟩ | h)
          · exact Or.inl h
          · exact absurd hd hdev
          · exact Or.inr h

theorem mem_expandDevices (hass : Hass) :
    ∀ (items : List AttrItem) (init : List String) (e : String),
      e ∈ expandDevices hass items init ↔
        e ∈ init ∨ ∃ d, AttrItem.astr d ∈ items ∧ (devGet hass d).isSome = true ∧
          (∃ en ∈ hass.ent_reg, en.entity_id = e ∧ en.device_id = some d) ∧
          (statesGet hass e).isSome = true := by
  intro items
  induction items with
  | nil => intro init e; simp [expandDevices]
  | cons it rest ih =>
      intro init e
      cases it with
      | aother =>
          have hstep : expandDevices hass (AttrItem.aother :: rest) init =
              expandDevices hass rest init := rfl
          rw [hstep, ih]
          constructor
          · rintro (h | ⟨d, hd, hrest⟩)
            · exact Or.inl h
            · exact Or.inr ⟨d, List.mem_cons_of_mem _ hd, hrest⟩
          · rintro (h | ⟨d, hd, hrest⟩)
            · exact Or.inl h
            · rcases List.mem_cons.mp hd with hbad | hd'
              · exact absurd hbad (by simp)
              · exact Or.inr ⟨d, hd', hrest⟩
      | astr dev_id =>
          cases hdg : devGet hass dev_id with
          | none =>
              have hstep : expandDevices hass (AttrItem.astr dev_id :: rest) init =
                  expandDevices hass rest init := by
                simp [expandDevices, hdg]
              rw [hstep, ih]
              constructor
              · rintro (h | ⟨d, hd, hrest⟩)
                · exact Or.inl h
                · exact Or.inr ⟨d, List.mem_cons_of_mem _ hd, hrest⟩
              · rintro (h | ⟨d, hd, hsome, hrest⟩)
                · exact Or.inl h
                · rcases List.mem_cons.mp hd with heq | hd'
                  · obtain rfl : d = dev_id := by
                      simpa [AttrItem.astr.injEq] using heq
                    rw [hdg] at hsome
                    exact absurd hsome (by simp)
                  · exact Or.inr ⟨d, hd', hsome, hrest⟩
          | some dv =>
              have hstep : expandDevices hass (AttrItem.astr dev_id :: rest) init =
                  expandDevices hass rest (devFold hass dev_id hass.ent_reg init) := by
                simp [expandDevices, hdg]
              rw [hstep, ih, mem_devFold]
              constructor
              · rintro ((h | ⟨en, hen, he, hd, hs⟩) | ⟨d, hd, hrest⟩)
                · exact Or.inl h
                · exact Or.inr ⟨dev_id, List.mem_cons_self _ _, by rw [hdg]; simp,
                    ⟨en, hen, he, hd⟩, hs⟩
                · exact Or.inr ⟨d, List.mem_cons_of_mem _ hd, hrest⟩
              · rintro (h | ⟨d, hd, hsome, ⟨en, hen, he, hdid⟩, hs⟩)
                · exact Or.inl (Or.inl h)
                · rcases List.mem_cons.mp hd with heq | hd'
                  · obtain rfl : d = dev_id := by
                      simpa [AttrItem.astr.injEq] using heq
                    exact Or.inl (Or.inr ⟨en, hen, he, hdid, hs⟩)
                  · exact Or.inr ⟨d, hd', hsome, ⟨en, hen, he, hdid⟩, hs⟩

theorem mem_entityEncMembers_isSome (hass : Hass) (st : HAState) (e : String)
    (h : e ∈ entityEncMembers hass st) : (statesGet hass e).isSome = true := by
  cases hv : entMapOf st with
  | none => simp [entityEncMembers, hv] at h
  | some v =>
      cases v with
      | adict m =>
          simp only [entityEncMembers, hv] at h
          exact (List.mem_filter.mp h).2
      | alist xs =>
          simp only [entityEncMembers, hv] at h
          obtain ⟨it, _, hit⟩ := List.mem_filterMap.mp h
          cases it with
          | astr s =>
              have hit' : (if (statesGet hass s).isSome = true
                  then (some s : Option String) else none) = some e := hit
              by_cases hs : (statesGet hass s).isSome = true
              · rw [if_pos hs] at hit'
                obtain rfl : s = e := by simpa using hit'
                exact hs
              · rw [if_neg hs] at hit'
                exact Option.noConfusion hit'
          | aother => exact Option.noConfusion hit
      | astr s =>
          simp only [entityEncMembers, hv] at h
          by_cases hs : (statesGet hass s).isSome = true
          · rw [if_pos hs] at h
            obtain rfl : e = s := by simpa using h
            exact hs
          · rw [if_neg hs] at h
            simp at h
      | aother => simp [entityEncMembers, hv] at h

theorem mem_resolveSceneEnts_isSome (hass : Hass) (st : HAState) (e : String)
    (h : e ∈ resolveSceneEnts hass st) : (statesGet hass e).isSome = true := by
  rcases (mem_expandDevices hass (declaredDeviceItems st)
      (entityEncMembers hass st) e).mp h with henc | ⟨_, _, _, _, hs⟩
  · exact mem_entityEncMembers_isSome hass st e henc
  · exact hs

/-! Helper lemmas about the snapshot builder -/

theorem mem_membershipTargets (slug : String → String) (gt : GroupType)
    (hass : Hass) (norm : String) (e : String) :
    e ∈ membershipTargets slug gt hass norm ↔
      e ∈ scanTargets slug gt hass norm ∧ (statesGet hass e).isSome = true ∧
        ALLOWED_DOMAINS.contains (entityDomain e) = true := by
  simp only [membershipTargets, mem_dedupFirst, List.mem_filter, Bool.and_eq_true]

theorem mem_aggregateSceneTargets (ents : List (String × List String)) (e : String) :
    e ∈ aggregateSceneTargets ents ↔ ∃ p ∈ ents, e ∈ p.2 := by
  simp only [aggregateSceneTargets, mem_dedupFirst, List.mem_flatten, List.mem_map]
  constructor
  · rintro ⟨l, ⟨p, hp, rfl⟩, he⟩
    exact ⟨p, hp, he⟩
  · rintro ⟨p, hp, he⟩
    exact ⟨p.2, ⟨p, hp, rfl⟩, he⟩

theorem mem_sceneEntitiesOf_isSome (slug : String → String) (hass : Hass)
    (norm : String) (p : String × List String)
    (hp : p ∈ sceneEntitiesOf slug hass norm) (e : String) (he : e ∈ p.2) :
    (statesGet hass e).isSome = true := by
  obtain ⟨sid, _, rfl⟩ := List.mem_map.mp hp
  cases hst : statesGet hass sid with
  | none => rw [hst] at he; simp at he
  | some st =>
      rw [hst] at he
      exact mem_resolveSceneEnts_isSome hass st e he

theorem membershipTargets_scene (slug : String → String) (hass : Hass)
    (norm : String) : membershipTargets slug GroupType.scene hass norm = [] := by
  simp [membershipTargets, scanTargets, dedupFirst, dedupFirstAux]

theorem membershipOnCount_eq_countP (slug : String → String) (gt : GroupType)
    (hass : Hass) (norm : String) :
    membershipOnCount slug gt hass norm =
      (membershipTargets slug gt hass norm).countP (fun e => stateIsOn hass e) := by
  by_cases hgt : gt = GroupType.scene
  · subst hgt
    simp [membershipOnCount, membershipTargets_scene]
  · simp [membershipOnCount, hgt]

theorem updateData_regFail (slug : String → String) (gt : GroupType)
    (label : String) (hass : Hass) (sceneFail : Bool) :
    updateData slug gt label hass true sceneFail = fallbackSnapshot := rfl

theorem updateData_sceneFail (slug : String → String) (gt : GroupType)
    (label : String) (hass : Hass) :
    updateData slug gt label hass false true =
      ⟨membershipTargets slug gt hass (slug label),
       (membershipTargets slug gt hass (slug label)).length,
       membershipOnCount slug gt hass (slug label), [], [], []⟩ := rfl

theorem updateData_full (slug : String → String) (gt : GroupType)
    (label : String) (hass : Hass) :
    updateData slug gt label hass false false =
      if gt = GroupType.scene ∧ scenesWithLabel slug hass (slug label) ≠ [] then
        ⟨aggregateSceneTargets (sceneEntitiesOf slug hass (slug label)),
         (aggregateSceneTargets (sceneEntitiesOf slug hass (slug label))).length,
         (aggregateSceneTargets (sceneEntitiesOf slug hass (slug label))).countP
           (fun e => stateIsOn hass e),
         scenesWithLabel slug hass (slug label),
         sceneEntitiesOf slug hass (slug label),
         sceneNamesOf slug hass (slug label)⟩
      else
        ⟨membershipTargets slug gt hass (slug label),
         (membershipTargets slug gt hass (slug label)).length,
         membershipOnCount slug gt hass (slug label),
         scenesWithLabel slug hass (slug label),
         sceneEntitiesOf slug hass (slug label),
         sceneNamesOf slug hass (slug label)⟩ := rfl

/-! Claim theorems -/

/-- C9: in every published snapshot, `total` equals the length of `targets`
and `on_count` counts, over exactly that same `targets` list, the entities
whose live state is `"on"` at recomputation time; hence
`on_count ≤ total`. -/
theorem claim_C9_theorem (slug : String → String) (gt : GroupType)
    (label : String) (hass : Hass) (regFail sceneFail : Bool) :
    (updateData slug gt label hass regFail sceneFail).total =
      (updateData slug gt label hass regFail sceneFail).targets.length ∧
    (updateData slug gt label hass regFail sceneFail).on_count =
      (updateData slug gt label hass regFail sceneFail).targets.countP
        (fun e => stateIsOn hass e) ∧
    (updateData slug gt label hass regFail sceneFail).on_count ≤
      (updateData slug gt label hass regFail sceneFail).total := by
  have key :
      (updateData slug gt label hass regFail sceneFail).total =
        (updateData slug gt label hass regFail sceneFail).targets.length ∧
      (updateData slug gt label hass regFail sceneFail).on_count =
        (updateData slug gt label hass regFail sceneFail).targets.countP
          (fun e => stateIsOn hass e) := by
    cases regFail with
    | true => rw [updateData_regFail]; exact ⟨rfl, rfl⟩
    | false =>
        cases sceneFail with
        | true =>
            rw [updateData_sceneFail]
            exact ⟨rfl, membershipOnCount_eq_countP slug gt hass (slug label)⟩
        | false =>
            rw [updateData_full]
            by_cases hagg : gt = GroupType.scene ∧
                scenesWithLabel slug hass (slug label) ≠ []
            · rw [if_pos hagg]; exact ⟨rfl, rfl⟩
            · rw [if_neg hagg]
              exact ⟨rfl, membershipOnCount_eq_countP slug gt hass (slug label)⟩
  refine ⟨key.1, key.2, ?_⟩
  rw [key.1, key.2]
  exact List.countP_le_length _

/-- C3 is false as stated: for a Scene-type group, a scene member whose
domain is outside the allowed-domain set still reaches the published
`targets` (scene members are only presence-filtered, never
domain-filtered). -/
theorem claim_C3_counterexample :
    "media_player.tv" ∈
      (updateData slugIdent GroupType.scene "l" mediaHass false false).targets ∧
    ALLOWED_DOMAINS.contains (entityDomain "media_player.tv") = false := by
  decide

/-- C3 corrected: in every published snapshot, for every group type,
`targets` contains no duplicates and every element has an entry in the
live state store; the allowed-domain restriction additionally holds for
Switch- and Light-type groups, but not for Scene-type groups, whose
members come from scenes without domain filtering. -/
theorem claim_C3_amended (slug : String → String) (gt : GroupType)
    (label : String) (hass : Hass) (regFail sceneFail : Bool) :
    (updateData slug gt label hass regFail sceneFail).targets.Nodup ∧
    (∀ e ∈ (updateData slug gt label hass regFail sceneFail).targets,
      (statesGet hass e).isSome = true) ∧
    (gt ≠ GroupType.scene →
      ∀ e ∈ (updateData slug gt label hass regFail sceneFail).targets,
        ALLOWED_DOMAINS.contains (entityDomain e) = true) := by
  cases regFail with
  | true =>
      rw [updateData_regFail]
      exact ⟨List.nodup_nil, by simp [fallbackSnapshot], by simp [fallbackSnapshot]⟩
  | false =>
      cases sceneFail with
      | true =>
          rw [updateData_sceneFail]
          refine ⟨nodup_dedupFirst _, fun e he => ?_, fun _ e he => ?_⟩
          · exact ((mem_membershipTargets slug gt hass (slug label) e).mp he).2.1
          · exact ((mem_membershipTargets slug gt hass (slug label) e).mp he).2.2
      | false =>
          rw [updateData_full]
          by_cases hagg : gt = GroupType.scene ∧
              scenesWithLabel slug hass (slug label) ≠ []
          · rw [if_pos hagg]
            refine ⟨nodup_dedupFirst _, fun e he => ?_, fun hgt _ _ => ?_⟩
            · obtain ⟨p, hp, hep⟩ := (mem_aggregateSceneTargets _ e).mp he
              exact mem_sceneEntitiesOf_isSome slug hass (slug label) p hp e hep
            · exact absurd hagg.1 hgt
          · rw [if_neg hagg]
            refine ⟨nodup_dedupFirst _, fun e he => ?_, fun _ e he => ?_⟩
            · exact ((mem_membershipTargets slug gt hass (slug label) e).mp he).2.1
            · exact ((mem_membershipTargets slug gt hass (slug label) e).mp he).2.2

/-- Witness for the corrected C3 at a concrete input: in the switch-group
snapshot over `demoHass`, the target `"light.a"` has an allowed domain. -/
theorem claim_C3_witness :
    ALLOWED_DOMAINS.contains (entityDomain "light.a") = true :=
  (claim_C3_amended slugIdent GroupType.switch "l" demoHass false false).2.2
    (by decide) "light.a" (by decide)

/-- C5: for a Scene-type group, published `targets` are exactly the union
of the snapshot's own resolved scene members — an entity is a target iff
it belongs to some matching scene's member list (so order or duplication
across scenes is immaterial) — and `targets` is empty whenever no scene
matches. -/
theorem claim_C5_theorem (slug : String → String) (label : String)
    (hass : Hass) (regFail sceneFail : Bool) (e : String) :
    (e ∈ (updateData slug GroupType.scene label hass regFail sceneFail).targets ↔
      ∃ p ∈ (updateData slug GroupType.scene label hass regFail sceneFail).scene_entities,
        e ∈ p.2) ∧
    ((updateData slug GroupType.scene label hass regFail sceneFail).scenes = [] →
      (updateData slug GroupType.scene label hass regFail sceneFail).targets = []) := by
  cases regFail with
  | true => rw [updateData_regFail]; exact ⟨by simp [fallbackSnapshot], fun _ => rfl⟩
  | false =>
      cases sceneFail with
      | true =>
          rw [updateData_sceneFail]
          exact ⟨by simp [membershipTargets_scene],
            fun _ => membershipTargets_scene slug hass (slug label)⟩
      | false =>
          rw [updateData_full]
          by_cases hs : scenesWithLabel slug hass (slug label) = []
          · have hneg : ¬(GroupType.scene = GroupType.scene ∧
                scenesWithLabel slug hass (slug label) ≠ []) :=
              fun h => h.2 hs
            rw [if_neg hneg]
            constructor
            · simp [membershipTargets_scene, sceneEntitiesOf, hs]
            · intro _; exact membershipTargets_scene slug hass (slug label)
          · rw [if_pos ⟨rfl, hs⟩]
            exact ⟨mem_aggregateSceneTargets _ e, fun h => absurd h hs⟩

/-- Witness for C5 at a concrete input: with no matching scene
(`emptyHass`), the Scene-type group's targets are empty. -/
theorem claim_C5_witness :
    (updateData slugIdent GroupType.scene "l" emptyHass false false).targets = [] :=
  (claim_C5_theorem slugIdent "l" emptyHass false false "x").2 (by decide)

/-- C7: while the suppression window is active (`now < expiry`) the
displayed value is the forced state and a snapshot notification changes
nothing; once `now ≥ expiry`, the next notification clears the override
and the displayed value (and the cached one) revert to the
snapshot-derived `total > 0 ∧ on_count > 0`. -/
theorem claim_C7_theorem (gs : GroupState) (now : Nat) (data : Snapshot) :
    (now < gs.suppress_until →
      (∀ b, gs.forced_state = some b → isOnDisplayed gs now data = b) ∧
      handleCoordinatorUpdate gs now data = gs) ∧
    (gs.suppress_until ≤ now →
      (handleCoordinatorUpdate gs now data).forced_state = none ∧
      isOnDisplayed (handleCoordinatorUpdate gs now data) now data =
        (decide (0 < data.total) && decide (0 < data.on_count)) ∧
      (handleCoordinatorUpdate gs now data).attr_is_on =
        (decide (0 < data.total) && decide (0 < data.on_count))) := by
  constructor
  · intro hlt
    constructor
    · intro b hb
      simp [isOnDisplayed, hlt, hb]
    · simp [handleCoordinatorUpdate, hlt]
  · intro hge
    have hnot : ¬ now < gs.suppress_until := not_lt.mpr hge
    refine ⟨by simp [handleCoordinatorUpdate, hnot], ?_, ?_⟩
    · simp [handleCoordinatorUpdate, hnot, isOnDisplayed]
    · simp [handleCoordinatorUpdate, hnot, isOnDisplayed]

/-- Witness for C7 at a concrete input: at time 5 with expiry 10, the
suppressed entity displays the forced `true` even over the all-off
fallback snapshot, and a notification leaves the state untouched. -/
theorem claim_C7_witness :
    isOnDisplayed suppressedOnState 5 fallbackSnapshot = true ∧
    handleCoordinatorUpdate suppressedOnState 5 fallbackSnapshot = suppressedOnState :=
  ⟨((claim_C7_theorem suppressedOnState 5 fallbackSnapshot).1 (by decide)).1 true rfl,
    ((claim_C7_theorem suppressedOnState 5 fallbackSnapshot).1 (by decide)).2⟩

/-- Structure of `_maybe_activate_scene`: it either raises (a matching
scene without a state), finds no candidate and changes nothing, or picks
the alphabetically least candidate, updates the last-used-scene slots
only, and issues one scene-activation command. -/
theorem maybeActivateScene_spec (slug : String → String) (hass : Hass)
    (label : String) (turnOff : Bool) (gs : GroupState) :
    maybeActivateScene slug hass label turnOff gs = none ∨
    maybeActivateScene slug hass label turnOff gs = some (gs, [], false) ∨
    ∃ chosen,
      maybeActivateScene slug hass label turnOff gs =
        some ((if turnOff then
                { gs with last_off_scene := some chosen, last_on_scene := none }
               else
                { gs with last_on_scene := some chosen, last_off_scene := none }),
          [Command.sceneActivate chosen], true) := by
  rcases h : collectCandidates hass turnOff (scenesWithLabel slug hass (slug label))
    with _ | ⟨_ | ⟨c, rest⟩⟩
  · exact Or.inl (by simp [maybeActivateScene, h])
  · exact Or.inr (Or.inl (by simp [maybeActivateScene, h]))
  · exact Or.inr (Or.inr ⟨minString c rest, by simp [maybeActivateScene, h]⟩)

/-- C4 is false as stated: a turn-on routed to a qualifying scene
dispatches a scene-activation command but opens no suppression window —
the forced state stays `none` and the expiry stays 0, not `now + W`. -/
theorem claim_C4_counterexample :
    (asyncTurnOn slugIdent demoHass "l" initGroupState 10
      (updateData slugIdent GroupType.switch "l" demoHass false false)).cmds =
        [Command.sceneActivate "scene.alpha"] ∧
    (asyncTurnOn slugIdent demoHass "l" initGroupState 10
      (updateData slugIdent GroupType.switch "l" demoHass false false)).gs.forced_state =
        none ∧
    (asyncTurnOn slugIdent demoHass "l" initGroupState 10
      (updateData slugIdent GroupType.switch "l" demoHass false false)).gs.suppress_until =
        0 := by
  decide

/-- C4 corrected: only commands dispatched through the bulk per-entity
path transition to `Suppressed(commandedState, now + W)` with the fixed
1-second window `W`; a command routed to a qualifying scene leaves the
suppression fields (forced state and expiry) unchanged. -/
theorem claim_C4_amended (slug : String → String) (hass : Hass) (label : String)
    (gs : GroupState) (now : Nat) (data : Snapshot) :
    (∀ ts, Command.bulkOn ts ∈ (asyncTurnOn slug hass label gs now data).cmds →
      (asyncTurnOn slug hass label gs now data).gs.forced_state = some true ∧
      (asyncTurnOn slug hass label gs now data).gs.suppress_until =
        now + suppressWindow) ∧
    (∀ sid, Command.sceneActivate sid ∈ (asyncTurnOn slug hass label gs now data).cmds →
      (asyncTurnOn slug hass label gs now data).gs.forced_state = gs.forced_state ∧
      (asyncTurnOn slug hass label gs now data).gs.suppress_until =
        gs.suppress_until) ∧
    (∀ ts, Command.bulkOff ts ∈ (asyncTurnOff slug hass label gs now data).cmds →
      (asyncTurnOff slug hass label gs now data).gs.forced_state = some false ∧
      (asyncTurnOff slug hass label gs now data).gs.suppress_until =
        now + suppressWindow) ∧
    (∀ sid, Command.sceneActivate sid ∈
        (asyncTurnOff slug hass label gs now data).cmds →
      (asyncTurnOff slug hass label gs now data).gs.forced_state = gs.forced_state ∧
      (asyncTurnOff slug hass label gs now data).gs.suppress_until =
        gs.suppress_until) := by
  have hon := maybeActivateScene_spec slug hass label false gs
  have hoff := maybeActivateScene_spec slug hass label true gs
  refine ⟨?_, ?_, ?_, ?_⟩
  · intro ts hmem
    rcases hon with h | h | ⟨chosen, h⟩
    · simp [asyncTurnOn, h] at hmem
    · by_cases hemp : data.targets.isEmpty
      · simp [asyncTurnOn, h, hemp] at hmem
      · simp [asyncTurnOn, h, hemp]
    · simp [asyncTurnOn, h] at hmem
  · intro sid hmem
    rcases hon with h | h | ⟨chosen, h⟩
    · simp [asyncTurnOn, h] at hmem
    · by_cases hemp : data.targets.isEmpty
      · simp [asyncTurnOn, h, hemp]
      · simp [asyncTurnOn, h, hemp] at hmem
    · simp [asyncTurnOn, h]
  · intro ts hmem
    rcases hoff with h | h | ⟨chosen, h⟩
    · simp [asyncTurnOff, h] at hmem
    · by_cases hemp : data.targets.isEmpty
      · simp [asyncTurnOff, h, hemp] at hmem
      · simp [asyncTurnOff, h, hemp]
    · simp [asyncTurnOff, h] at hmem
  · intro sid hmem
    rcases hoff with h | h | ⟨chosen, h⟩
    · simp [asyncTurnOff, h] at hmem
    · by_cases hemp : data.targets.isEmpty
      · simp [asyncTurnOff, h, hemp]
      · simp [asyncTurnOff, h, hemp] at hmem
    · simp [asyncTurnOff, h]

/-- Witness for the corrected C4 at a concrete input: over `plainHass`
(no scenes), turn-on at time 10 goes through the bulk path and opens the
window — forced state `some true`, expiry `11`. -/
theorem claim_C4_witness :
    (asyncTurnOn slugIdent plainHass "l" initGroupState 10
      (updateData slugIdent GroupType.switch "l" plainHass false false)).gs.forced_state =
        some true ∧
    (asyncTurnOn slugIdent plainHass "l" initGroupState 10
      (updateData slugIdent GroupType.switch "l" plainHass false false)).gs.suppress_until =
        10 + suppressWindow :=
  (claim_C4_amended slugIdent plainHass "l" initGroupState 10
    (updateData slugIdent GroupType.switch "l" plainHass false false)).1
    ["light.a"] (by decide)

/-- C2: the claim describes the empty no-op correctly except for "the call
returns normally": at the failing input (no qualifying scene, empty
targets) the embedded `async_turn_on` indeed dispatches no command and
leaves the suppression fields unchanged with a `false` display, but the
call raises instead of returning — the debug log on that branch reads
`self._label_name`, an attribute never assigned on the group entity
classes. -/
theorem claim_C2_code_bug :
    (asyncTurnOn slugIdent emptyHass "l" initGroupState 10
      (updateData slugIdent GroupType.switch "l" emptyHass false false)).cmds = [] ∧
    (asyncTurnOn slugIdent emptyHass "l" initGroupState 10
      (updateData slugIdent GroupType.switch "l" emptyHass false false)).gs.forced_state =
        initGroupState.forced_state ∧
    (asyncTurnOn slugIdent emptyHass "l" initGroupState 10
      (updateData slugIdent GroupType.switch "l" emptyHass false false)).gs.suppress_until =
        initGroupState.suppress_until ∧
    isOnDisplayed
      (asyncTurnOn slugIdent emptyHass "l" initGroupState 10
        (updateData slugIdent GroupType.switch "l" emptyHass false false)).gs 10
      (updateData slugIdent GroupType.switch "l" emptyHass false false) = false ∧
    (asyncTurnOn slugIdent emptyHass "l" initGroupState 10
      (updateData slugIdent GroupType.switch "l" emptyHass false false)).raised = true := by
  decide

/-- When every label-matching scene has a state object, the candidate
collection succeeds and returns exactly the direction-filtered scenes in
discovery order. -/
theorem collectCandidates_eq (hass : Hass) (turnOff : Bool) :
    ∀ l : List String, (∀ sid ∈ l, (statesGet hass sid).isSome = true) →
      collectCandidates hass turnOff l = some (l.filter (isCandidate hass turnOff)) := by
  intro l
  induction l with
  | nil => intro _; rfl
  | cons sid rest ih =>
      intro hall
      have hsid := hall sid (List.mem_cons_self sid rest)
      cases hst : statesGet hass sid with
      | none => rw [hst] at hsid; simp at hsid
      | some st =>
          have hrest := ih (fun s hs => hall s (List.mem_cons_of_mem sid hs))
          cases turnOff with
          | false =>
              simp only [collectCandidates, hst, hrest, List.filter_cons,
                isCandidate, sceneHasOffName, if_false, Bool.false_eq_true]
          | true =>
              simp only [collectCandidates, hst, hrest, List.filter_cons,
                isCandidate, sceneHasOffName, if_true]

/-- C6: under the assumption that every label-matching scene has a live
state, turn-on considers exactly the scenes whose display name lacks the
case-insensitive substring `"off"` (turn-off: exactly those containing
it); when candidates exist the alphabetically least identifier is
activated and recorded in the matching last-used slot while the opposite
slot is cleared, and when none exist the corresponding slot is cleared as
the command falls through to the bulk path. -/
theorem claim_C6_theorem (slug : String → String) (hass : Hass) (label : String)
    (gs : GroupState) (now : Nat) (data : Snapshot)
    (hall : ∀ sid ∈ scenesWithLabel slug hass (slug label),
      (statesGet hass sid).isSome = true) :
    (∀ c cs,
      (scenesWithLabel slug hass (slug label)).filter (isCandidate hass false) =
        c :: cs →
      ∃ m, asyncTurnOn slug hass label gs now data =
          ⟨{ gs with last_on_scene := some m, last_off_scene := none },
            [Command.sceneActivate m], false⟩ ∧
        m ∈ c :: cs ∧ ∀ y ∈ c :: cs, strLt y m = false) ∧
    ((scenesWithLabel slug hass (slug label)).filter (isCandidate hass false) = [] →
      (asyncTurnOn slug hass label gs now data).gs.last_on_scene = none) ∧
    (∀ c cs,
      (scenesWithLabel slug hass (slug label)).filter (isCandidate hass true) =
        c :: cs →
      ∃ m, asyncTurnOff slug hass label gs now data =
          ⟨{ gs with last_off_scene := some m, last_on_scene := none },
            [Command.sceneActivate m], false⟩ ∧
        m ∈ c :: cs ∧ ∀ y ∈ c :: cs, strLt y m = false) ∧
    ((scenesWithLabel slug hass (slug label)).filter (isCandidate hass true) = [] →
      (asyncTurnOff slug hass label gs now data).gs.last_off_scene = none) := by
  have hcoll_on := collectCandidates_eq hass false
    (scenesWithLabel slug hass (slug label)) hall
  have hcoll_off := collectCandidates_eq hass true
    (scenesWithLabel slug hass (slug label)) hall
  refine ⟨?_, ?_, ?_, ?_⟩
  · intro c cs hfil
    rw [hfil] at hcoll_on
    refine ⟨minString c cs, ?_, ?_, ?_⟩
    · simp [asyncTurnOn, maybeActivateScene, hcoll_on]
    · rcases minString_mem cs c with h | h
      · rw [h]; exact List.mem_cons_self c cs
      · exact List.mem_cons_of_mem c h
    · intro y hy
      exact minString_not_lt cs c y (List.mem_cons.mp hy)
  · intro hfil
    rw [hfil] at hcoll_on
    by_cases hemp : data.targets.isEmpty <;>
      simp [asyncTurnOn, maybeActivateScene, hcoll_on, hemp]
  · intro c cs hfil
    rw [hfil] at hcoll_off
    refine ⟨minString c cs, ?_, ?_, ?_⟩
    · simp [asyncTurnOff, maybeActivateScene, hcoll_off]
    · rcases minString_mem cs c with h | h
      · rw [h]; exact List.mem_cons_self c cs
      · exact List.mem_cons_of_mem c h
    · intro y hy
      exact minString_not_lt cs c y (List.mem_cons.mp hy)
  · intro hfil
    rw [hfil] at hcoll_off
    by_cases hemp : data.targets.isEmpty <;>
      simp [asyncTurnOff, maybeActivateScene, hcoll_off, hemp]

/-- Witness for C6 at a concrete input: over `demoHass` the turn-on
candidates are "Zeta" and "Alpha" (both non-"off"), and the
alphabetically first, `scene.alpha`, is activated and recorded. -/
theorem claim_C6_witness :
    asyncTurnOn slugIdent demoHass "l" initGroupState 10
        (updateData slugIdent GroupType.switch "l" demoHass false false) =
      ⟨{ initGroupState with
          last_on_scene := some "scene.alpha",
          last_off_scene := none },
        [Command.sceneActivate "scene.alpha"], false⟩ := by
  obtain ⟨m, heq, hmem, hmin⟩ :=
    (claim_C6_theorem slugIdent demoHass "l" initGroupState 10
      (updateData slugIdent GroupType.switch "l" demoHass false false)
      (by decide)).1 "scene.zeta" ["scene.alpha"] (by decide)
  have halpha := hmin "scene.alpha" (by decide)
  have hm : m = "scene.alpha" := by
    rcases List.mem_cons.mp hmem with h | h
    · rw [h] at halpha
      exact absurd halpha (by decide)
    · simpa using h
  rw [hm] at heq
  exact heq

/-- C1 is false as stated: a scene state carrying both an `entities` dict
and a `device_ids` list resolves to the dict keys *plus* the
device-owned entities — the encodings are not mutually exclusive. -/
theorem claim_C1_counterexample :
    resolveSceneEnts demoHass bothEncodingsScene = ["light.a", "light.b"] ∧
    entityEncMembers demoHass bothEncodingsScene = ["light.a"] := by
  decide

/-- C1 corrected: the three entity encodings (dict keys, sequence, single
string) are mutually exclusive in the stated priority — a truthy
`entities` value makes the `entity_id` attribute irrelevant — but the
device-id list is evaluated *in addition*: a resolved member is either an
entity-encoding member or a store-present entity owned by a declared,
registered device, so a scene carrying both encodings yields their union
(device entities appended only when not already collected). -/
theorem claim_C1_amended (hass : Hass) (st : HAState) (e : String) :
    (e ∈ resolveSceneEnts hass st ↔
      e ∈ entityEncMembers hass st ∨
        ∃ d, AttrItem.astr d ∈ declaredDeviceItems st ∧
          (devGet hass d).isSome = true ∧
          (∃ en ∈ hass.ent_reg, en.entity_id = e ∧ en.device_id = some d) ∧
          (statesGet hass e).isSome = true) ∧
    (∀ v, st.entities_attr = some v → v.truthy = true →
      entityEncMembers hass st =
        entityEncMembers hass { st with entity_id_attr := none }) := by
  constructor
  · exact mem_expandDevices hass (declaredDeviceItems st) (entityEncMembers hass st) e
  · intro v hv htr
    have h1 : entMapOf st = some v := by simp [entMapOf, hv, htr]
    have h2 : entMapOf { st with entity_id_attr := none } = some v := by
      simp [entMapOf, hv, htr]
    simp only [entityEncMembers, h1, h2]

/-- Witness for the corrected C1 at a concrete input: with a truthy
`entities` dict present, dropping the `entity_id` attribute does not
change the entity-encoding members. -/
theorem claim_C1_witness :
    entityEncMembers demoHass bothEncodingsScene =
      entityEncMembers demoHass { bothEncodingsScene with entity_id_attr := none } :=
  (claim_C1_amended demoHass bothEncodingsScene "x").2
    (AttrVal.adict [("light.a", "on")]) rfl (by decide)

/-- Iterating `requestRefresh` any positive number of times on a state
with a recomputation in flight just marks one trailing recomputation as
queued. -/
theorem applyN_requestRefresh :
    ∀ (N : Nat) (c : CoordState), c.in_flight = true → 1 ≤ N →
      applyN requestRefresh N c = { c with pending := true } := by
  intro N
  induction N with
  | zero => intro c _ h; exact absurd h (by omega)
  | succ n ih =>
      intro c hin _
      have hf : requestRefresh c = { c with pending := true } := by
        simp [requestRefresh, hin]
      show applyN requestRefresh n (requestRefresh c) = { c with pending := true }
      rw [hf]
      rcases Nat.eq_zero_or_pos n with h0 | hpos
      · subst h0; rfl
      · rw [ih { c with pending := true } (by simpa using hin) hpos]

/-- C8 (coalescing contract of the refresh coordinator): issuing
`requestRefresh` N ≥ 1 times while a recomputation is in flight queues
exactly one trailing recomputation — after the in-flight one finishes,
exactly one more runs and then the coordinator is idle, for two completed
recomputations in total (never N+1), each delivering exactly one listener
notification with its fully-built snapshot. -/
theorem claim_C8_theorem (c : CoordState) (N : Nat) (s1 s2 : Snapshot)
    (hin : c.in_flight = true) (hN : 1 ≤ N) :
    (applyN requestRefresh N c).in_flight = true ∧
    (applyN requestRefresh N c).pending = true ∧
    (applyN requestRefresh N c).completed = c.completed ∧
    (applyN requestRefresh N c).notified = c.notified ∧
    (finishRecompute (applyN requestRefresh N c) s1).in_flight = true ∧
    (finishRecompute (applyN requestRefresh N c) s1).pending = false ∧
    (finishRecompute (finishRecompute (applyN requestRefresh N c) s1) s2).in_flight =
      false ∧
    (finishRecompute (finishRecompute (applyN requestRefresh N c) s1) s2).completed =
      c.completed + 2 ∧
    (finishRecompute (finishRecompute (applyN requestRefresh N c) s1) s2).notified =
      c.notified ++ [s1, s2] := by
  rw [applyN_requestRefresh N c hin hN]
  refine ⟨hin, rfl, rfl, rfl, ?_⟩
  simp [finishRecompute]

/-- Witness for C8 at a concrete input: three refresh requests during an
in-flight recomputation yield exactly two completed recomputations. -/
theorem claim_C8_witness :
    (finishRecompute (finishRecompute
        (applyN requestRefresh 3 (CoordState.mk true false 0 []))
        fallbackSnapshot) fallbackSnapshot).completed = 0 + 2 :=
  (claim_C8_theorem ⟨true, false, 0, []⟩ 3 fallbackSnapshot fallbackSnapshot rfl
    (by decide)).2.2.2.2.2.2.2.1

/-- C10 is false as stated: a failure during scene enumeration for a
Switch-type group is caught, but the returned snapshot keeps the
membership-scan targets and counts — it is not the empty-targets,
zero-count fallback. -/
theorem claim_C10_counterexample :
    (updateData slugIdent GroupType.switch "l" demoHass false true).targets =
      ["light.a", "light.b"] ∧
    (updateData slugIdent GroupType.switch "l" demoHass false true).on_count = 1 := by
  decide

/-- C10 corrected: no error propagates past the coordinator boundary
(`updateData` always returns a snapshot); a registry-read failure returns
the defined fallback snapshot with empty targets and zero counts, while a
scene-enumeration failure returns a snapshot with empty scene data that
retains the membership-scan targets and counts (identical, for non-scene
groups, to the failure-free targets and counts). -/
theorem claim_C10_amended (slug : String → String) (gt : GroupType)
    (label : String) (hass : Hass) (sceneFail : Bool) :
    updateData slug gt label hass true sceneFail = fallbackSnapshot ∧
    (updateData slug gt label hass false true).scenes = [] ∧
    (updateData slug gt label hass false true).scene_entities = [] ∧
    (updateData slug gt label hass false true).scene_names = [] ∧
    (gt ≠ GroupType.scene →
      (updateData slug gt label hass false true).targets =
        (updateData slug gt label hass false false).targets ∧
      (updateData slug gt label hass false true).on_count =
        (updateData slug gt label hass false false).on_count) := by
  refine ⟨updateData_regFail slug gt label hass sceneFail,
    by rw [updateData_sceneFail], by rw [updateData_sceneFail],
    by rw [updateData_sceneFail], fun hgt => ?_⟩
  have hneg : ¬(gt = GroupType.scene ∧ scenesWithLabel slug hass (slug label) ≠ []) :=
    fun h => hgt h.1
  rw [updateData_sceneFail, updateData_full, if_neg hneg]
  exact ⟨rfl, rfl⟩

/-- Witness for the corrected C10 at a concrete input: for the switch
group over `demoHass`, a scene-enumeration failure leaves targets equal
to the failure-free targets. -/
theorem claim_C10_witness :
    (updateData slugIdent GroupType.switch "l" demoHass false true).targets =
      (updateData slugIdent GroupType.switch "l" demoHass false false).targets :=
  ((claim_C10_amended slugIdent GroupType.switch "l" demoHass true).2.2.2.2
    (by decide)).1

end LabelMate
